import Mathlib

/-!
Shallow embedding of the 45telega request admission and pacing engine:
the rate limiter in src/mcp_telegram/rate_limiter.py and the retry
wrapper in src/mcp_telegram/tools.py.  Clock readings and recorded
timestamps are modelled exactly by rational numbers; FloodWait seconds
are natural numbers as in the Telethon error object.
-/

/-- Configuration of the rate limiter, mirroring RateLimitConfig
(rate_limiter.py lines 28-46) with its field defaults. -/
structure RateLimitConfig where
  global_limit : ℕ := 30
  chat_limit : ℕ := 1
  group_limit : ℕ := 20
  resolve_daily_limit : ℕ := 200
  max_retries : ℕ := 3
  max_flood_wait : ℕ := 300
  max_concurrent : ℕ := 5
  min_delay : ℚ := 1/10
  max_delay : ℚ := 1/2
deriving DecidableEq

/-- Default-constructed configuration, as produced by RateLimitConfig(). -/
def defaultConfig : RateLimitConfig := {}

/-- Statistics record, mirroring RateLimitStats (rate_limiter.py lines 69-79). -/
structure RateLimitStats where
  total_requests : ℕ := 0
  successful_requests : ℕ := 0
  rate_limited_requests : ℕ := 0
  flood_errors : ℕ := 0
  last_request_time : Option ℚ := none
  last_flood_time : Option ℚ := none
  resolve_requests_today : ℕ := 0
  resolve_last_reset : Option ℚ := none
deriving DecidableEq

/-- Freshly constructed statistics record (all counters zero). -/
def initialStats : RateLimitStats := {}

/-- Number of whole days in a time difference of d seconds, mirroring
Python timedelta.days (floor division of the difference by 86400). -/
def tdDays (d : ℚ) : ℤ := ⌊d / 86400⌋

/-- Embedding of RateLimitStats.record_request (lines 81-84). -/
def RateLimitStats.record_request (s : RateLimitStats) (now : ℚ) : RateLimitStats :=
  { s with total_requests := s.total_requests + 1, last_request_time := some now }

/-- Embedding of RateLimitStats.record_success (lines 86-88). -/
def RateLimitStats.record_success (s : RateLimitStats) : RateLimitStats :=
  { s with successful_requests := s.successful_requests + 1 }

/-- Embedding of RateLimitStats.record_rate_limited (lines 90-92). -/
def RateLimitStats.record_rate_limited (s : RateLimitStats) : RateLimitStats :=
  { s with rate_limited_requests := s.rate_limited_requests + 1 }

/-- Embedding of RateLimitStats.record_flood_error (lines 94-97). -/
def RateLimitStats.record_flood_error (s : RateLimitStats) (now : ℚ) : RateLimitStats :=
  { s with flood_errors := s.flood_errors + 1, last_flood_time := some now }

/-- The daily-rollover condition shared by record_resolve_request (lines
104-105) and check_resolve_limit (lines 235-236): the last reset is absent
or at least one whole day old. -/
def RateLimitStats.resolve_reset_due (s : RateLimitStats) (now : ℚ) : Bool :=
  match s.resolve_last_reset with
  | none => true
  | some r => decide (1 ≤ tdDays (now - r))

/-- Embedding of RateLimitStats.record_resolve_request (lines 99-109):
reset the counter and the reset timestamp when a day has passed, then
increment the counter. -/
def RateLimitStats.record_resolve_request (s : RateLimitStats) (now : ℚ) : RateLimitStats :=
  let s1 := if s.resolve_reset_due now then
      { s with resolve_requests_today := 0, resolve_last_reset := some now }
    else s
  { s1 with resolve_requests_today := s1.resolve_requests_today + 1 }

/-- Embedding of the success_rate property (lines 111-116). -/
def RateLimitStats.success_rate (s : RateLimitStats) : ℚ :=
  if s.total_requests = 0 then 0
  else (s.successful_requests : ℚ) / (s.total_requests : ℚ)

/-- Embedding of the flood_rate property (lines 118-123). -/
def RateLimitStats.flood_rate (s : RateLimitStats) : ℚ :=
  if s.total_requests = 0 then 0
  else (s.flood_errors : ℚ) / (s.total_requests : ℚ)

/-- Embedding of RateLimiter.check_resolve_limit (lines 231-240): perform
the rollover bookkeeping, then report whether the daily counter is still
below the ceiling.  Returns the answer together with the updated stats. -/
def check_resolve_limit (cfg : RateLimitConfig) (s : RateLimitStats) (now : ℚ) :
    Bool × RateLimitStats :=
  let s1 := if s.resolve_reset_due now then
      { s with resolve_requests_today := 0, resolve_last_reset := some now }
    else s
  (decide (s1.resolve_requests_today < cfg.resolve_daily_limit), s1)

/-- Embedding of RateLimiter._cleanup_old_requests (lines 158-162): pop
entries from the front while they are at least window_seconds old. -/
def cleanup_old_requests (queue : List ℚ) (now window_seconds : ℚ) : List ℚ :=
  queue.dropWhile (fun t => decide (t ≤ now - window_seconds))

/-- One pass of the check-wait-record body shared by
RateLimiter._wait_for_global_limit (lines 164-181) and
RateLimiter._wait_for_chat_limit (lines 183-210), executed under the
scope lock with now = time.time() read at entry.  Returns the new queue
and the time slept.  Note the code appends the pre-sleep reading now,
not the post-sleep clock value.  The head-of-empty-queue case (reachable
only when the configured limit is 0) raises IndexError in Python and is
mapped to a zero wait here; all theorems below use positive limits. -/
def wait_step (queue : List ℚ) (now window : ℚ) (limit : ℕ) : List ℚ × ℚ :=
  let q := cleanup_old_requests queue now window
  let wait : ℚ :=
    if limit ≤ q.length then
      match q.head? with
      | some oldest => if 0 < window - (now - oldest) then window - (now - oldest) else 0
      | none => 0
    else 0
  (q ++ [now], wait)

/-- Iterated admissions against one sliding window: each reading in nows
is one serialized pass of wait_step over the evolving queue. -/
def run_window (window : ℚ) (limit : ℕ) (q : List ℚ) (nows : List ℚ) : List ℚ :=
  nows.foldl (fun acc n => (wait_step acc n window limit).1) q

/-- Lower-casing of a string, character by character (Python str.lower). -/
def lowerStr (s : String) : String := ⟨s.data.map Char.toLower⟩

/-- The fixed set of group-management method names used by
RateLimiter._determine_chat_type (lines 219-229). -/
def group_methods : List String :=
  ["get_chat_members", "get_chat_admins", "ban_chat_member",
   "unban_chat_member", "kick_chat_member", "promote_to_admin",
   "add_chat_member", "get_chat_online_count"]

/-- Embedding of RateLimiter._determine_chat_type (lines 219-229). -/
def determine_chat_type (method_name : String) : Bool :=
  group_methods.contains (lowerStr method_name)

/-- The fixed resolve-class name set of the wrapper layer
(tools.py lines 86-89). -/
def resolve_methods : List String :=
  ["resolve_username", "search_global", "search_chats", "search_users",
   "get_entity_info", "resolve_phone", "check_username"]

/-- Boolean test that needle is an initial segment of hay. -/
def charsStartWith : List Char → List Char → Bool
  | [], _ => true
  | _ :: _, [] => false
  | a :: as, b :: bs => a == b && charsStartWith as bs

/-- Boolean substring test over character lists, mirroring the Python
expression needle in hay. -/
def charsContains (needle : List Char) : List Char → Bool
  | [] => needle.isEmpty
  | c :: t => charsStartWith needle (c :: t) || charsContains needle t

/-- The resolve-class test performed inside RateLimiter.acquire
(rate_limiter.py line 262): the literal resolve occurs as a substring of
the lower-cased method name. -/
def method_is_resolve (method_name : String) : Bool :=
  charsContains ("resolve").data (lowerStr method_name).data

/-- The uniform pacing delay of RateLimiter._add_human_delay (lines
212-217): a sampled base delay divided by the priority tier. -/
def add_human_delay (base_delay : ℚ) (priority : ℕ) : ℚ := base_delay / priority

/-- Mutable state of one RateLimiter instance: the stats record, the
global timestamp queue and the per-chat queues (a lazily populated map,
modelled as an association list). -/
structure LimiterState where
  stats : RateLimitStats
  globalQueue : List ℚ
  chatQueues : List (String × List ℚ)
deriving DecidableEq

/-- Fresh limiter state as built by RateLimiter.__init__. -/
def initialState : LimiterState := ⟨initialStats, [], []⟩

/-- Lookup of a per-chat queue, with the defaultdict empty-deque default. -/
def get_chat_queue (qs : List (String × List ℚ)) (cid : String) : List ℚ :=
  (qs.lookup cid).getD []

/-- Store an updated per-chat queue. -/
def set_chat_queue (qs : List (String × List ℚ)) (cid : String) (q : List ℚ) :
    List (String × List ℚ) :=
  (cid, q) :: qs.eraseP (fun p => p.1 == cid)

/-- Suspension points of the admission sequence in RateLimiter.acquire
(lines 242-295) at which an unexpected internal failure can surface: the
check_resolve_limit call, the semaphore acquisition, the global-window
wait, the per-chat-window wait and the pacing delay. -/
inductive AcquirePhase where
  | resolveCheckP
  | semaphoreP
  | globalWaitP
  | chatWaitP
  | delayP
deriving DecidableEq

/-- Whether an injected failure at the given phase is actually reachable
for this invocation: the resolve check only runs for resolve-class
names, and the per-chat wait only runs when a chat id is supplied. -/
def phase_runs (method_name : String) (chat_id : Option String) : AcquirePhase → Bool
  | .resolveCheckP => method_is_resolve method_name
  | .chatWaitP => chat_id.isSome
  | _ => true

/-- The concurrency gate and window section of RateLimiter.acquire
(lines 269-287), after the resolve-class bookkeeping: record the
attempt, wait on the global window, wait on the per-chat window when a
chat id is supplied, apply the pacing delay, then grant.  A failure
injected at a phase is caught by the except handler of acquire, which
yields False with all mutations made so far retained; tG and tC are the
time.time() readings taken inside the global and chat lock sections. -/
def acquire_core (cfg : RateLimitConfig) (st : LimiterState) (method_name : String)
    (chat_id : Option String) (tG tC : ℚ) (failAt : Option AcquirePhase) :
    Bool × LimiterState :=
  if failAt = some .semaphoreP then (false, st)
  else
    let s1 := st.stats.record_request tG
    if failAt = some .globalWaitP then (false, { st with stats := s1 })
    else
      let gw := wait_step st.globalQueue tG 60 cfg.global_limit
      let s2 := if 0 < gw.2 then s1.record_rate_limited else s1
      let st2 : LimiterState := { st with stats := s2, globalQueue := gw.1 }
      match chat_id with
      | some cid =>
        if failAt = some .chatWaitP then (false, st2)
        else
          let isGroup := determine_chat_type method_name
          let window : ℚ := if isGroup then 60 else 1
          let lim : ℕ := if isGroup then cfg.group_limit else cfg.chat_limit
          let cw := wait_step (get_chat_queue st2.chatQueues cid) tC window lim
          let s3 := if 0 < cw.2 then st2.stats.record_rate_limited else st2.stats
          let st3 : LimiterState :=
            { st2 with stats := s3, chatQueues := set_chat_queue st2.chatQueues cid cw.1 }
          if failAt = some .delayP then (false, st3) else (true, st3)
      | none =>
        if failAt = some .delayP then (false, st2) else (true, st2)

/-- Embedding of RateLimiter.acquire (lines 242-295) up to its first
yield: the grant decision handed to the caller, together with the state
mutations performed.  The try/except of the source converts any failure
raised inside the admission sequence into a yielded False; failAt names
the phase at which such a failure is injected (none = no failure).  tR
is the datetime/clock reading of the resolve bookkeeping. -/
def acquire_grant (cfg : RateLimitConfig) (st : LimiterState) (method_name : String)
    (chat_id : Option String) (tR tG tC : ℚ) (failAt : Option AcquirePhase) :
    Bool × LimiterState :=
  if method_is_resolve method_name then
    if failAt = some .resolveCheckP then (false, st)
    else
      let ck := check_resolve_limit cfg st.stats tR
      if ck.1 then
        let s2 := ck.2.record_resolve_request tR
        acquire_core cfg { st with stats := s2 } method_name chat_id tG tC failAt
      else (false, { st with stats := ck.2 })
  else acquire_core cfg st method_name chat_id tG tC failAt

/-- Outcome of one run of the retry wrapper _execute_with_retry
(tools.py lines 122-151). -/
inductive RetryOutcome (α : Type) where
  | ok (a : α)
  | raisedFlood (seconds : ℕ)
  | raisedOther
  | loopEnd
deriving DecidableEq

/-- Result of one attempt of the wrapped call: a value, a FloodWaitError
carrying its server-requested seconds, or any other exception. -/
inductive AttemptResult (α : Type) where
  | success (a : α)
  | floodWait (seconds : ℕ)
  | otherError
deriving DecidableEq

/-- Observable trace of one run of the retry wrapper: final outcome, the
sleeps performed in order, how many flood errors were recorded into the
stats, and the final value of the retries counter. -/
structure RetryResult (α : Type) where
  outcome : RetryOutcome α
  sleeps : List ℕ
  flood_recorded : ℕ
  retries_used : ℕ
deriving DecidableEq

/-- Loop body of _execute_with_retry (tools.py lines 126-149).  The fuel
argument is maintained as max_retries + 1 - retries, so fuel = 0 holds
exactly when the while guard retries <= max_retries is false; the
recursion is structural on it.  f gives the result of the i-th
invocation of the wrapped call. -/
def retry_fuel (f : ℕ → AttemptResult α) (max_retries : ℕ) :
    ℕ → ℕ → ℕ → ℕ → List ℕ → RetryResult α
  | 0, retries, _, floods, sleeps => ⟨.loopEnd, sleeps, floods, retries⟩
  | fuel + 1, retries, idx, floods, sleeps =>
    match f idx with
    | .success a => ⟨.ok a, sleeps, floods, retries⟩
    | .otherError => ⟨.raisedOther, sleeps, floods, retries⟩
    | .floodWait s =>
      if 60 < s then ⟨.raisedFlood s, sleeps, floods + 1, retries⟩
      else if max_retries < retries + 1 then ⟨.raisedFlood s, sleeps, floods + 1, retries + 1⟩
      else retry_fuel f max_retries fuel (retries + 1) (idx + 1)
             (floods + 1) (sleeps ++ [s])

/-- Entry into the retry loop at a given retries value (the while guard
written as its fuel). -/
def retry_go (f : ℕ → AttemptResult α) (max_retries retries idx floods : ℕ)
    (sleeps : List ℕ) : RetryResult α :=
  retry_fuel f max_retries (max_retries + 1 - retries) retries idx floods sleeps

/-- Embedding of _execute_with_retry (tools.py lines 122-151): run the
wrapped call with the retry loop, starting with zero retries. -/
def execute_with_retry (f : ℕ → AttemptResult α) (max_retries : ℕ) : RetryResult α :=
  retry_go f max_retries 0 0 0 []

/-! Helper lemmas about window eviction. -/

/-- Eviction removes a leading segment: the surviving queue is a suffix. -/
theorem cleanup_suffix (q : List ℚ) (now w : ℚ) :
    ∃ p, p ++ cleanup_old_requests q now w = q := by
  induction q with
  | nil => exact ⟨[], rfl⟩
  | cons a l ih =>
    unfold cleanup_old_requests at ih ⊢
    rw [List.dropWhile_cons]
    simp only [decide_eq_true_eq]
    by_cases h : a ≤ now - w
    · rw [if_pos h]
      obtain ⟨p, hp⟩ := ih
      exact ⟨a :: p, by simp [hp]⟩
    · rw [if_neg h]
      exact ⟨[], rfl⟩

/-- Members of the evicted queue were members of the original queue. -/
theorem cleanup_mem (q : List ℚ) (now w : ℚ) {t : ℚ}
    (ht : t ∈ cleanup_old_requests q now w) : t ∈ q := by
  obtain ⟨p, hp⟩ := cleanup_suffix q now w
  rw [← hp]
  exact List.mem_append_right p ht

/-- Eviction preserves sortedness. -/
theorem cleanup_sorted (q : List ℚ) (now w : ℚ) (hs : List.Sorted (· ≤ ·) q) :
    List.Sorted (· ≤ ·) (cleanup_old_requests q now w) := by
  obtain ⟨p, hp⟩ := cleanup_suffix q now w
  rw [← hp] at hs
  exact (List.pairwise_append.mp hs).2.1

/-- On a sorted queue every surviving timestamp is younger than the window. -/
theorem cleanup_mem_lt (q : List ℚ) (now w : ℚ) (hs : List.Sorted (· ≤ ·) q) :
    ∀ t ∈ cleanup_old_requests q now w, now - t < w := by
  induction q with
  | nil => simp [cleanup_old_requests]
  | cons a l ih =>
    rw [List.sorted_cons] at hs
    unfold cleanup_old_requests at ih ⊢
    rw [List.dropWhile_cons]
    simp only [decide_eq_true_eq]
    by_cases h : a ≤ now - w
    · rw [if_pos h]
      exact ih hs.2
    · rw [if_neg h]
      intro t ht
      rcases List.mem_cons.mp ht with rfl | htl
      · linarith [not_le.mp h]
      · linarith [not_le.mp h, hs.1 t htl]

/-- C4: for any window, after any sequence of record calls (which insert
timestamps in non-decreasing order) followed by eviction at time now with
the given duration, every remaining timestamp t satisfies now - t < dur,
and eviction removed only a leading prefix of the sequence. -/
theorem c4_eviction_bound_and_prefix_removal (q : List ℚ) (now dur : ℚ)
    (hs : List.Sorted (· ≤ ·) q) :
    (∀ t ∈ cleanup_old_requests q now dur, now - t < dur) ∧
    ∃ p, p ++ cleanup_old_requests q now dur = q :=
  ⟨cleanup_mem_lt q now dur hs, cleanup_suffix q now dur⟩

/-- Witness for C4 at the concrete queue [0, 30], now = 60, duration 60. -/
theorem c4_eviction_bound_and_prefix_removal_witness :
    List.Sorted (· ≤ ·) [(0:ℚ), 30] ∧
    (∀ t ∈ cleanup_old_requests [(0:ℚ), 30] 60 60, 60 - t < 60) :=
  ⟨by decide, (c4_eviction_bound_and_prefix_removal [0, 30] 60 60 (by decide)).1⟩

/-- Auxiliary invariant for C9: running any sequence of serialized
admissions over a sorted queue keeps the queue sorted, provided the
clock readings are themselves non-decreasing and no earlier than the
entries already recorded (which the per-scope lock guarantees, since
each pass appends the reading taken at its own lock entry). -/
theorem run_window_sorted (window : ℚ) (limit : ℕ) :
    ∀ (nows : List ℚ) (q : List ℚ),
      List.Sorted (· ≤ ·) q →
      (∀ t ∈ q, ∀ n ∈ nows, t ≤ n) →
      List.Pairwise (· ≤ ·) nows →
      List.Sorted (· ≤ ·) (run_window window limit q nows) := by
  intro nows
  induction nows with
  | nil => exact fun q hq _ _ => hq
  | cons n tl ih =>
    intro q hq hqn hn
    have hstep : run_window window limit q (n :: tl) =
        run_window window limit (cleanup_old_requests q n window ++ [n]) tl := rfl
    rw [hstep]
    have hn1 := List.pairwise_cons.mp hn
    apply ih
    · refine List.pairwise_append.mpr ⟨cleanup_sorted q n window hq, by simp, ?_⟩
      intro a ha b hb
      rw [List.mem_singleton] at hb
      rw [hb]
      exact hqn a (cleanup_mem q n window ha) n (List.mem_cons_self n tl)
    · intro t ht m hm
      rcases List.mem_append.mp ht with h1 | h2
      · exact hqn t (cleanup_mem q n window h1) m (List.mem_cons_of_mem n hm)
      · rw [List.mem_singleton] at h2
        subst h2
        exact hn1.1 m hm
    · exact hn1.2

/-- C9: every sliding-window queue holds timestamps in non-decreasing
order in every reachable state: starting from the empty queue of a fresh
scope, any serialized sequence of admission passes (with non-decreasing
lock-entry clock readings) leaves the queue sorted, because each pass
appends its own clock reading and eviction removes only a prefix. -/
theorem c9_window_sorted_invariant (window : ℚ) (limit : ℕ) (nows : List ℚ)
    (hn : List.Pairwise (· ≤ ·) nows) :
    List.Sorted (· ≤ ·) (run_window window limit [] nows) :=
  run_window_sorted window limit nows [] (by simp) (by simp) hn

/-- Witness for C9 at window 60, ceiling 1 and clock readings 0, 30, 45. -/
theorem c9_window_sorted_invariant_witness :
    List.Pairwise (· ≤ ·) [(0:ℚ), 30, 45] ∧
    List.Sorted (· ≤ ·) (run_window 60 1 [] [(0:ℚ), 30, 45]) :=
  ⟨by decide, c9_window_sorted_invariant 60 1 [0, 30, 45] (by decide)⟩

/-- C1 evaluation, global window with ceiling 1 and duration 60: the
first call is admitted at time 0 and recorded as 0; the second call
arrives at time 30, finds the window full, sleeps 30 seconds (a nonzero
wait, as the claim states), but is then recorded with its pre-sleep
arrival reading 30, which is strictly below the 1st recorded timestamp
plus the duration — the source appends now (read before the sleep) at
rate_limiter.py line 181 instead of the post-sleep clock value, so the
recorded-timestamp inequality of the claim fails. -/
theorem c1_pre_sleep_timestamp_recorded :
    wait_step [] 0 60 1 = ([0], 0) ∧
    wait_step [(0:ℚ)] 30 60 1 = ([0, 30], 30) ∧
    (0:ℚ) < 30 ∧ ¬ ((0:ℚ) + 60 ≤ 30) := by
  refine ⟨?_, ?_, by norm_num, by norm_num⟩
  · simp [wait_step, cleanup_old_requests]
  · have h1 : cleanup_old_requests [(0:ℚ)] 30 60 = [0] := by
      unfold cleanup_old_requests
      rw [List.dropWhile_cons]
      norm_num
    unfold wait_step
    rw [h1]
    norm_num

/-- Bridge between the Python timedelta.days test and elapsed seconds:
the difference spans at least one whole day exactly when it is at least
86400 seconds. -/
theorem tdDays_one_le_iff (d : ℚ) : 1 ≤ tdDays d ↔ 86400 ≤ d := by
  unfold tdDays
  rw [Int.le_floor]
  push_cast
  rw [le_div_iff₀ (by norm_num : (0:ℚ) < 86400), one_mul]

/-- Counterexample for C5: on the very first resolve-classified call
ever (no previous reset exists, so the claim places it in the increment
branch that must leave the reset timestamp unchanged), the code also
updates the reset timestamp from None to now. -/
theorem c5_counterexample :
    (initialStats.record_resolve_request 0).resolve_last_reset ≠
      initialStats.resolve_last_reset ∧
    initialStats.resolve_last_reset = none ∧
    (initialStats.record_resolve_request 0).resolve_requests_today =
      initialStats.resolve_requests_today + 1 := by
  refine ⟨?_, rfl, rfl⟩
  intro h
  exact Option.noConfusion h

/-- C5 (amended): record_resolve_request sets the counter to exactly 1
and the reset timestamp to now when the reset condition holds — i.e. on
the first call at least 24 hours after the previous reset, or on the
very first call when no previous reset exists; on every other call it
increments the counter by exactly 1 and leaves the reset timestamp
unchanged.  The last two conjuncts identify the reset condition with
the claim language. -/
theorem c5_resolve_counter_update (now : ℚ) (s : RateLimitStats) :
    (s.resolve_reset_due now = true →
      (s.record_resolve_request now).resolve_requests_today = 1 ∧
      (s.record_resolve_request now).resolve_last_reset = some now) ∧
    (s.resolve_reset_due now = false →
      (s.record_resolve_request now).resolve_requests_today =
        s.resolve_requests_today + 1 ∧
      (s.record_resolve_request now).resolve_last_reset = s.resolve_last_reset) ∧
    (∀ r, s.resolve_last_reset = some r →
      (s.resolve_reset_due now = true ↔ 86400 ≤ now - r)) ∧
    (s.resolve_last_reset = none → s.resolve_reset_due now = true) := by
  refine ⟨?_, ?_, ?_, ?_⟩
  · intro h
    simp [RateLimitStats.record_resolve_request, h]
  · intro h
    simp [RateLimitStats.record_resolve_request, h]
  · intro r hr
    unfold RateLimitStats.resolve_reset_due
    rw [hr]
    simp [tdDays_one_le_iff]
  · intro h
    unfold RateLimitStats.resolve_reset_due
    rw [h]

/-- Witness for C5 at the fresh stats record and now = 0. -/
theorem c5_resolve_counter_update_witness :
    initialStats.resolve_reset_due 0 = true ∧
    (initialStats.record_resolve_request 0).resolve_requests_today = 1 ∧
    (initialStats.record_resolve_request 0).resolve_last_reset = some 0 :=
  ⟨rfl, ((c5_resolve_counter_update 0 initialStats).1 rfl).1,
    ((c5_resolve_counter_update 0 initialStats).1 rfl).2⟩

/-- Stats state right after the first check_resolve_limit call at time 0
on a fresh limiter: counter 0, reset timestamp set. -/
def statsAfterFirstCheck : RateLimitStats :=
  { initialStats with resolve_requests_today := 0, resolve_last_reset := some 0 }

/-- Evaluation fact: once the reset timestamp is current, the rollover
condition is false at the same instant. -/
theorem resolve_reset_not_due_now : statsAfterFirstCheck.resolve_reset_due 0 = false := by
  unfold RateLimitStats.resolve_reset_due statsAfterFirstCheck
  simp only [decide_eq_false_iff_not, not_le]
  unfold tdDays
  norm_num

/-- Counterexample for C8: check_resolve_quota does not consume quota.
Calling check_resolve_limit 200 times on a fresh limiter leaves the
daily counter at 0, so the 201st call still returns true, not false as
the claim states. -/
theorem c8_counterexample :
    (check_resolve_limit defaultConfig
      ((fun s => (check_resolve_limit defaultConfig s 0).2)^[200] initialStats) 0).1 =
      true := by
  have hs1 : (check_resolve_limit defaultConfig initialStats 0).2 =
      statsAfterFirstCheck := rfl
  have hfix : (fun s => (check_resolve_limit defaultConfig s 0).2) statsAfterFirstCheck =
      statsAfterFirstCheck := by
    show (check_resolve_limit defaultConfig statsAfterFirstCheck 0).2 = statsAfterFirstCheck
    unfold check_resolve_limit
    rw [resolve_reset_not_due_now]
    rfl
  have h200 : ((fun s => (check_resolve_limit defaultConfig s 0).2)^[200] initialStats) =
      statsAfterFirstCheck := by
    have : (200:ℕ) = 199 + 1 := rfl
    rw [this, Function.iterate_succ_apply, hs1, Function.iterate_fixed hfix 199]
  rw [h200]
  unfold check_resolve_limit
  rw [resolve_reset_not_due_now]
  rfl

/-- Folding a list of resolve-classified calls into the stats record. -/
def record_many (ts : List ℚ) (s : RateLimitStats) : RateLimitStats :=
  ts.foldl (fun acc t => acc.record_resolve_request t) s

/-- Recording resolve calls strictly within one day of the last reset
increments the counter once per call and never moves the reset. -/
theorem record_many_no_rollover :
    ∀ (ts : List ℚ) (s : RateLimitStats) (r : ℚ),
      s.resolve_last_reset = some r → (∀ u ∈ ts, u - r < 86400) →
      (record_many ts s).resolve_last_reset = some r ∧
      (record_many ts s).resolve_requests_today =
        s.resolve_requests_today + ts.length := by
  intro ts
  induction ts with
  | nil => exact fun s r hr _ => ⟨hr, by simp [record_many]⟩
  | cons t tl ih =>
    intro s r hr hu
    have hdue : s.resolve_reset_due t = false := by
      unfold RateLimitStats.resolve_reset_due
      rw [hr]
      simp only [decide_eq_false_iff_not]
      rw [tdDays_one_le_iff]
      exact not_le.mpr (hu t (List.mem_cons_self t tl))
    have hstep : (s.record_resolve_request t).resolve_last_reset = some r ∧
        (s.record_resolve_request t).resolve_requests_today =
          s.resolve_requests_today + 1 := by
      constructor
      · rw [((c5_resolve_counter_update t s).2.1 hdue).2]
        exact hr
      · exact ((c5_resolve_counter_update t s).2.1 hdue).1
    have hrec : record_many (t :: tl) s = record_many tl (s.record_resolve_request t) := rfl
    have htail := ih (s.record_resolve_request t) r hstep.1
      (fun u hu' => hu u (List.mem_cons_of_mem t hu'))
    rw [hrec]
    refine ⟨htail.1, ?_⟩
    rw [htail.2, hstep.2, List.length_cons]
    omega

/-- C8 (amended): the quota is consumed by recorded resolve calls, not
by the pre-flight check itself.  After 200 resolve-classified calls have
been recorded (all within one day of the last reset, so no rollover
intervenes) with resolve_daily_limit = 200, check_resolve_quota returns
false, and keeps returning false at any instant less than 24 hours after
the reset; once 24 hours have elapsed it returns true again. -/
theorem c8_quota_after_200_records (ts : List ℚ) (r t : ℚ) (s : RateLimitStats)
    (hreset : s.resolve_last_reset = some r)
    (hcount : s.resolve_requests_today = 0)
    (hts : ∀ u ∈ ts, u - r < 86400)
    (hlen : ts.length = 200) :
    (record_many ts s).resolve_requests_today = 200 ∧
    (t - r < 86400 →
      (check_resolve_limit defaultConfig (record_many ts s) t).1 = false) ∧
    (86400 ≤ t - r →
      (check_resolve_limit defaultConfig (record_many ts s) t).1 = true) := by
  obtain ⟨h1, h2⟩ := record_many_no_rollover ts s r hreset hts
  have hc : (record_many ts s).resolve_requests_today = 200 := by
    rw [h2, hcount, hlen]
  refine ⟨hc, ?_, ?_⟩
  · intro hlt
    have hdue : (record_many ts s).resolve_reset_due t = false := by
      unfold RateLimitStats.resolve_reset_due
      rw [h1]
      simp only [decide_eq_false_iff_not]
      rw [tdDays_one_le_iff]
      exact not_le.mpr hlt
    unfold check_resolve_limit
    rw [hdue]
    simp [hc, defaultConfig]
  · intro hge
    have hdue : (record_many ts s).resolve_reset_due t = true := by
      unfold RateLimitStats.resolve_reset_due
      rw [h1]
      simp only [decide_eq_true_eq]
      rw [tdDays_one_le_iff]
      exact hge
    unfold check_resolve_limit
    rw [hdue]
    simp [defaultConfig]

/-- Evaluation fact used by the C8 witness: recording at time 0 stays
within the day that started at reset time 0. -/
theorem replicate_within_day : ∀ u ∈ List.replicate 200 (0:ℚ), u - 0 < 86400 := by
  intro u hu
  rw [List.eq_of_mem_replicate hu]
  norm_num

/-- Evaluation fact used by the C8 witness: time 100 is less than a day
after reset time 0. -/
theorem q100_within_day : (100:ℚ) - 0 < 86400 := by norm_num

/-- Witness for C8 (amended) with 200 recorded resolve calls at time 0
and a check at time 100. -/
theorem c8_quota_after_200_records_witness :
    (List.replicate 200 (0:ℚ)).length = 200 ∧
    (record_many (List.replicate 200 (0:ℚ)) statsAfterFirstCheck).resolve_requests_today
      = 200 ∧
    (check_resolve_limit defaultConfig
      (record_many (List.replicate 200 (0:ℚ)) statsAfterFirstCheck) 100).1 = false :=
  ⟨List.length_replicate 200 0,
   (c8_quota_after_200_records (List.replicate 200 (0:ℚ)) 0 100 statsAfterFirstCheck
     rfl rfl replicate_within_day (List.length_replicate 200 0)).1,
   (c8_quota_after_200_records (List.replicate 200 (0:ℚ)) 0 100 statsAfterFirstCheck
     rfl rfl replicate_within_day (List.length_replicate 200 0)).2.1 q100_within_day⟩

/-- C3: any unexpected internal failure raised at a reachable suspension
point of the admission sequence is caught by the except handler of
acquire and converted into a yielded False: the caller observes
granted = false and no exception.  (The grant is a total Bool by the
type of acquire_grant, which embeds the try/except structure.) -/
theorem c3_internal_failure_denied (cfg : RateLimitConfig) (st : LimiterState)
    (mn : String) (cid : Option String) (tR tG tC : ℚ) (ph : AcquirePhase)
    (hph : phase_runs mn cid ph = true) :
    (acquire_grant cfg st mn cid tR tG tC (some ph)).1 = false := by
  cases ph with
  | resolveCheckP =>
    have hmr : method_is_resolve mn = true := hph
    simp [acquire_grant, hmr]
  | semaphoreP =>
    by_cases hmr : method_is_resolve mn
    · cases hc : (check_resolve_limit cfg st.stats tR).1 with
      | false => simp [acquire_grant, hmr, hc]
      | true => simp [acquire_grant, hmr, hc, acquire_core]
    · simp [acquire_grant, hmr, acquire_core]
  | globalWaitP =>
    by_cases hmr : method_is_resolve mn
    · cases hc : (check_resolve_limit cfg st.stats tR).1 with
      | false => simp [acquire_grant, hmr, hc]
      | true => simp [acquire_grant, hmr, hc, acquire_core]
    · simp [acquire_grant, hmr, acquire_core]
  | chatWaitP =>
    have hsome : cid.isSome = true := hph
    obtain ⟨c, rfl⟩ := Option.isSome_iff_exists.mp hsome
    by_cases hmr : method_is_resolve mn
    · cases hc : (check_resolve_limit cfg st.stats tR).1 with
      | false => simp [acquire_grant, hmr, hc]
      | true => simp [acquire_grant, hmr, hc, acquire_core]
    · simp [acquire_grant, hmr, acquire_core]
  | delayP =>
    cases cid with
    | none =>
      by_cases hmr : method_is_resolve mn
      · cases hc : (check_resolve_limit cfg st.stats tR).1 with
        | false => simp [acquire_grant, hmr, hc]
        | true => simp [acquire_grant, hmr, hc, acquire_core]
      · simp [acquire_grant, hmr, acquire_core]
    | some c =>
      by_cases hmr : method_is_resolve mn
      · cases hc : (check_resolve_limit cfg st.stats tR).1 with
        | false => simp [acquire_grant, hmr, hc]
        | true => simp [acquire_grant, hmr, hc, acquire_core]
      · simp [acquire_grant, hmr, acquire_core]

/-- Witness for C3: a failure injected at the global-window wait of a
plain send_message admission yields granted = false. -/
theorem c3_internal_failure_denied_witness :
    phase_runs ("send_message") none AcquirePhase.globalWaitP = true ∧
    (acquire_grant defaultConfig initialState ("send_message") none 0 0 0
      (some AcquirePhase.globalWaitP)).1 = false :=
  ⟨rfl, c3_internal_failure_denied defaultConfig initialState ("send_message") none 0 0 0
    AcquirePhase.globalWaitP rfl⟩

/-- One FloodWaitError iteration of the retry loop with the wait within
the accepted 60-second threshold: if another retry is allowed, the loop
records the flood error, sleeps exactly the requested seconds, bumps the
retries counter and re-invokes; if the retry bound would be exceeded,
the flood error is recorded and then re-raised, without sleeping. -/
theorem retry_go_flood_step (α : Type) (f : ℕ → AttemptResult α)
    (maxR retries idx floods : ℕ) (sleeps : List ℕ) (s : ℕ)
    (hr : retries ≤ maxR) (hf : f idx = .floodWait s) (hs : s ≤ 60) :
    (retries + 1 ≤ maxR →
      retry_go f maxR retries idx floods sleeps =
        retry_go f maxR (retries + 1) (idx + 1) (floods + 1) (sleeps ++ [s])) ∧
    (maxR < retries + 1 →
      retry_go f maxR retries idx floods sleeps =
        ⟨.raisedFlood s, sleeps, floods + 1, retries + 1⟩) := by
  have h60 : ¬ (60 < s) := Nat.not_lt.mpr hs
  have hfuel : maxR + 1 - retries = (maxR - retries) + 1 := by omega
  constructor
  · intro hlt
    have hnr : ¬ (maxR < retries + 1) := Nat.not_lt.mpr hlt
    rw [retry_go, hfuel]
    simp only [retry_fuel, hf, h60, hnr, if_false]
    rw [retry_go]
    have : maxR + 1 - (retries + 1) = maxR - retries := by omega
    rw [this]
  · intro hgt
    rw [retry_go, hfuel]
    simp only [retry_fuel, hf, h60, hgt, if_false, if_true]

/-- Counterexample for C2: a throttle signal requesting a 100-second
wait, which is within the configured max_flood_wait of 300 seconds, is
nevertheless aborted immediately by the wrapper — no sleep, no retry,
the flood failure re-raised — because the code compares against a
hard-coded 60 seconds (tools.py line 134), not against the configured
bound. -/
theorem c2_counterexample :
    execute_with_retry (fun _ => (AttemptResult.floodWait 100 : AttemptResult ℕ)) 3 =
      ⟨RetryOutcome.raisedFlood 100, [], 1, 0⟩ ∧
    100 ≤ defaultConfig.max_flood_wait ∧
    defaultConfig.max_flood_wait = 300 := by
  refine ⟨by decide, by decide, rfl⟩

/-- C2 (amended): the wrapper aborts immediately — recording the flood
error but performing no sleep and no retry, and re-raising the throttle
failure to the caller — exactly when the requested wait exceeds the
hard-coded 60-second threshold of tools.py line 134 (the configured
max_flood_wait is never consulted); a request of at most 60 seconds is
never aborted on that ground: it either sleeps and re-invokes, or
re-raises only through the max-retries bound. -/
theorem c2_flood_abort_threshold (α : Type) (f : ℕ → AttemptResult α) (maxR s : ℕ)
    (h0 : f 0 = .floodWait s) :
    (60 < s →
      execute_with_retry f maxR = ⟨.raisedFlood s, [], 1, 0⟩) ∧
    (s ≤ 60 → 1 ≤ maxR →
      execute_with_retry f maxR = retry_go f maxR 1 1 1 [s]) ∧
    (s ≤ 60 → maxR = 0 →
      execute_with_retry f maxR = ⟨.raisedFlood s, [], 1, 1⟩) := by
  refine ⟨?_, ?_, ?_⟩
  · intro h60
    rw [execute_with_retry, retry_go]
    have h1 : maxR + 1 - 0 = maxR + 1 := rfl
    rw [h1]
    simp only [retry_fuel, h0, h60, if_true]
  · intro hs hres
    have hstep := (retry_go_flood_step α f maxR 0 0 0 [] s (Nat.zero_le maxR) h0 hs).1
      (by omega)
    rw [execute_with_retry]
    exact hstep
  · intro hs hmz
    subst hmz
    have hstep := (retry_go_flood_step α f 0 0 0 0 [] s (Nat.le_refl 0) h0 hs).2
      (by omega)
    rw [execute_with_retry]
    exact hstep

/-- Witness for C2 (amended): a 100-second request aborts with no sleep
and zero retries under any retry budget. -/
theorem c2_flood_abort_threshold_witness :
    60 < 100 ∧
    execute_with_retry (fun _ => (AttemptResult.floodWait 100 : AttemptResult ℕ)) 7 =
      ⟨RetryOutcome.raisedFlood 100, [], 1, 0⟩ :=
  ⟨by decide,
   (c2_flood_abort_threshold ℕ (fun _ => AttemptResult.floodWait 100) 7 100 rfl).1
     (by decide)⟩

/-- C7: a throttle signal whose requested wait is within the accepted
threshold makes the wrapper sleep exactly the requested seconds,
increment the retries counter by one and re-invoke the call, up to the
configured max retry count, beyond which the throttle failure is
re-raised; concretely, a 5-second throttle followed by a success under
max_retries = 3 returns that success having slept [5] with exactly one
retry recorded (and one flood error recorded). -/
theorem c7_throttle_retry_bounded :
    (execute_with_retry
        (fun i => if i = 0 then AttemptResult.floodWait 5 else AttemptResult.success 42) 3 =
      ⟨RetryOutcome.ok 42, [5], 1, 1⟩) ∧
    (∀ (α : Type) (f : ℕ → AttemptResult α) (maxR retries idx floods : ℕ)
        (sleeps : List ℕ) (s : ℕ),
      retries ≤ maxR → f idx = AttemptResult.floodWait s → s ≤ 60 →
      ((retries + 1 ≤ maxR →
        retry_go f maxR retries idx floods sleeps =
          retry_go f maxR (retries + 1) (idx + 1) (floods + 1) (sleeps ++ [s])) ∧
       (maxR < retries + 1 →
        retry_go f maxR retries idx floods sleeps =
          ⟨.raisedFlood s, sleeps, floods + 1, retries + 1⟩))) :=
  ⟨by decide,
   fun α f maxR retries idx floods sleeps s hr hf hs =>
     retry_go_flood_step α f maxR retries idx floods sleeps s hr hf hs⟩

/-- Witness for C7 at a concrete 5-second throttle with max_retries = 3:
the first loop iteration sleeps 5 seconds and re-invokes with one retry
counted. -/
theorem c7_throttle_retry_bounded_witness :
    0 + 1 ≤ 3 ∧
    retry_go (fun _ => (AttemptResult.floodWait 5 : AttemptResult ℕ)) 3 0 0 0 [] =
      retry_go (fun _ => (AttemptResult.floodWait 5 : AttemptResult ℕ)) 3 1 1 1 [5] :=
  ⟨by decide,
   (c7_throttle_retry_bounded.2 ℕ (fun _ => AttemptResult.floodWait 5) 3 0 0 0 [] 5
     (by decide) rfl (by decide)).1 (by decide)⟩

/-- Stats operations performed by the admission engine and the retry
wrapper (record_request, record_success, record_rate_limited,
record_flood_error), with the clock reading they carry. -/
inductive StatsOp where
  | reqOp (t : ℚ)
  | successOp
  | rateLimitedOp
  | floodOp (t : ℚ)
deriving DecidableEq

/-- Apply one stats operation. -/
def apply_stats_op (s : RateLimitStats) : StatsOp → RateLimitStats
  | .reqOp t => s.record_request t
  | .successOp => s.record_success
  | .rateLimitedOp => s.record_rate_limited
  | .floodOp t => s.record_flood_error t

/-- Apply a sequence of stats operations in order. -/
def apply_stats_trace (s : RateLimitStats) (ops : List StatsOp) : RateLimitStats :=
  ops.foldl apply_stats_op s

/-- Well-formedness of an engine trace, tracking the running request and
success counts: a success is only ever recorded for a grant whose
record_request already happened (acquire sets acquired only after
record_request, and record_success fires once per acquired grant), so
at every prefix the success count stays at or below the request count.
Flood errors and rate-limited events carry no such bound: the retry
wrapper records one flood error per FloodWaitError, up to
max_retries + 1 of them for a single recorded request. -/
def wf_ok : ℕ → ℕ → List StatsOp → Bool
  | _, _, [] => true
  | r, su, op :: rest =>
    match op with
    | .reqOp _ => wf_ok (r + 1) su rest
    | .successOp => decide (su + 1 ≤ r) && wf_ok r (su + 1) rest
    | .rateLimitedOp => wf_ok r su rest
    | .floodOp _ => wf_ok r su rest

/-- Well-formedness of a trace started from fresh stats. -/
def wf_trace (ops : List StatsOp) : Bool := wf_ok 0 0 ops

/-- Along any well-formed trace the success counter never exceeds the
request counter. -/
theorem wf_ok_success_le :
    ∀ (ops : List StatsOp) (s : RateLimitStats),
      wf_ok s.total_requests s.successful_requests ops = true →
      s.successful_requests ≤ s.total_requests →
      (apply_stats_trace s ops).successful_requests ≤
        (apply_stats_trace s ops).total_requests := by
  intro ops
  induction ops with
  | nil => exact fun s _ h2 => h2
  | cons op rest ih =>
    intro s h1 h2
    cases op with
    | reqOp t =>
      exact ih (s.record_request t) h1 (Nat.le_succ_of_le h2)
    | successOp =>
      have h1' : (decide (s.successful_requests + 1 ≤ s.total_requests) &&
          wf_ok s.total_requests (s.successful_requests + 1) rest) = true := h1
      rw [Bool.and_eq_true] at h1'
      exact ih s.record_success h1'.2 (of_decide_eq_true h1'.1)
    | rateLimitedOp =>
      exact ih s.record_rate_limited h1 h2
    | floodOp t =>
      exact ih (s.record_flood_error t) h1 h2

/-- Counterexample for C6: the reachable trace of one granted request
whose wrapped call hits two FloodWaitErrors (record_request, then two
record_flood_error calls from the retry wrapper) drives flood_rate to
2.0, outside [0, 1], while success_rate is 0.0 with total_requests = 1,
contradicting both the range clause and the equals-zero-exactly-when
clause of the claim. -/
theorem c6_counterexample :
    wf_trace [StatsOp.reqOp 0, StatsOp.floodOp 1, StatsOp.floodOp 2] = true ∧
    (apply_stats_trace initialStats
      [StatsOp.reqOp 0, StatsOp.floodOp 1, StatsOp.floodOp 2]).total_requests = 1 ∧
    (apply_stats_trace initialStats
      [StatsOp.reqOp 0, StatsOp.floodOp 1, StatsOp.floodOp 2]).flood_rate = 2 ∧
    ¬ ((apply_stats_trace initialStats
      [StatsOp.reqOp 0, StatsOp.floodOp 1, StatsOp.floodOp 2]).flood_rate ≤ 1) ∧
    (apply_stats_trace initialStats
      [StatsOp.reqOp 0, StatsOp.floodOp 1, StatsOp.floodOp 2]).success_rate = 0 := by
  have hst : apply_stats_trace initialStats
      [StatsOp.reqOp 0, StatsOp.floodOp 1, StatsOp.floodOp 2] =
      ⟨1, 0, 0, 2, some 0, some 2, 0, none⟩ := rfl
  refine ⟨rfl, rfl, ?_, ?_, ?_⟩
  · rw [hst]
    unfold RateLimitStats.flood_rate
    norm_num
  · rw [hst]
    unfold RateLimitStats.flood_rate
    norm_num
  · rw [hst]
    unfold RateLimitStats.success_rate
    norm_num

/-- C6 (amended): over every well-formed engine trace, success_rate lies
in [0, 1] and flood_rate is nonnegative, and both are 0.0 when
total_requests = 0; flood_rate has no upper bound of 1 (see the
counterexample), and either rate can also be 0.0 with total_requests
positive. -/
theorem c6_rates_bounded (ops : List StatsOp) (h : wf_trace ops = true) :
    0 ≤ (apply_stats_trace initialStats ops).success_rate ∧
    (apply_stats_trace initialStats ops).success_rate ≤ 1 ∧
    0 ≤ (apply_stats_trace initialStats ops).flood_rate ∧
    ((apply_stats_trace initialStats ops).total_requests = 0 →
      (apply_stats_trace initialStats ops).success_rate = 0 ∧
      (apply_stats_trace initialStats ops).flood_rate = 0) := by
  have hle : (apply_stats_trace initialStats ops).successful_requests ≤
      (apply_stats_trace initialStats ops).total_requests :=
    wf_ok_success_le ops initialStats h (Nat.le_refl 0)
  refine ⟨?_, ?_, ?_, ?_⟩
  · unfold RateLimitStats.success_rate
    split
    · exact le_refl 0
    · positivity
  · unfold RateLimitStats.success_rate
    split
    · norm_num
    · rename_i h0
      rw [div_le_one (by positivity)]
      exact_mod_cast hle
  · unfold RateLimitStats.flood_rate
    split
    · exact le_refl 0
    · positivity
  · intro h0
    unfold RateLimitStats.success_rate RateLimitStats.flood_rate
    rw [if_pos h0, if_pos h0]
    exact ⟨rfl, rfl⟩

/-- Witness for C6 (amended) on the trace of one granted, successful
request. -/
theorem c6_rates_bounded_witness :
    wf_trace [StatsOp.reqOp 0, StatsOp.successOp] = true ∧
    (apply_stats_trace initialStats [StatsOp.reqOp 0, StatsOp.successOp]).success_rate ≤ 1 :=
  ⟨by decide, (c6_rates_bounded [StatsOp.reqOp 0, StatsOp.successOp] (by decide)).2.1⟩

/-- Characterization of the initial-segment test. -/
theorem charsStartWith_iff : ∀ (n h : List Char),
    charsStartWith n h = true ↔ ∃ r, h = n ++ r := by
  intro n
  induction n with
  | nil =>
    intro h
    simp [charsStartWith]
  | cons a as ih =>
    intro h
    cases h with
    | nil => simp [charsStartWith]
    | cons b bs =>
      rw [charsStartWith, Bool.and_eq_true, beq_iff_eq, ih bs]
      constructor
      · rintro ⟨hab, r, hr⟩
        exact ⟨r, by rw [hab, hr]; rfl⟩
      · rintro ⟨r, hr⟩
        rw [List.cons_append] at hr
        injection hr with h1 h2
        exact ⟨h1.symm, r, h2⟩

/-- Characterization of the substring test. -/
theorem charsContains_iff : ∀ (h n : List Char),
    charsContains n h = true ↔ ∃ l r, h = l ++ n ++ r := by
  intro h
  induction h with
  | nil =>
    intro n
    rw [charsContains, List.isEmpty_iff]
    constructor
    · rintro rfl
      exact ⟨[], [], rfl⟩
    · rintro ⟨l, r, hr⟩
      rcases List.append_eq_nil.mp hr.symm with ⟨h1, h2⟩
      rcases List.append_eq_nil.mp h1 with ⟨_, h4⟩
      exact h4
  | cons c t ih =>
    intro n
    rw [charsContains, Bool.or_eq_true, charsStartWith_iff n (c :: t), ih n]
    constructor
    · rintro (⟨r, hr⟩ | ⟨l, r, hr⟩)
      · exact ⟨[], r, by simpa using hr⟩
      · exact ⟨c :: l, r, by simp [hr]⟩
    · rintro ⟨l, r, hr⟩
      cases l with
      | nil =>
        left
        exact ⟨r, by simpa using hr⟩
      | cons x xs =>
        right
        rw [List.cons_append, List.cons_append] at hr
        injection hr with h1 h2
        exact ⟨xs, r, by simpa using h2⟩

/-- A fixed lower-case needle occurs in the lower-cased name exactly
when some slice of the original name lower-cases to the needle. -/
theorem charsContains_map_toLower (name needle : List Char) :
    charsContains needle (name.map Char.toLower) = true ↔
    ∃ l m r, name = l ++ m ++ r ∧ m.map Char.toLower = needle := by
  rw [charsContains_iff]
  constructor
  · rintro ⟨l, r, hr⟩
    rcases List.append_eq_map_iff.mp hr.symm with ⟨a, b, hab, hma, hmb⟩
    rcases List.append_eq_map_iff.mp hma.symm with ⟨l1, m, hal, hml1, hmm⟩
    exact ⟨l1, m, b, by rw [hab, hal], hmm⟩
  · rintro ⟨l, m, r, rfl, hm⟩
    refine ⟨l.map Char.toLower, r.map Char.toLower, ?_⟩
    simp [hm]

/-- C10: inside acquire, a call counts as resolve-class exactly when the
case-preserved substring resolve occurs in the lower-cased method name —
equivalently, some slice of the original name lower-cases to resolve;
consequently the wrapper-layer resolve set members search_global,
search_chats and check_username are never counted against the daily
quota by acquire itself, while names containing resolve (in any case)
are. -/
theorem c10_resolve_classification :
    (∀ name : String, method_is_resolve name = true ↔
      ∃ l m r : List Char, name.data = l ++ m ++ r ∧
        m.map Char.toLower = ("resolve").data) ∧
    method_is_resolve ("search_global") = false ∧
    method_is_resolve ("search_chats") = false ∧
    method_is_resolve ("check_username") = false ∧
    ("search_global") ∈ resolve_methods ∧
    ("search_chats") ∈ resolve_methods ∧
    ("check_username") ∈ resolve_methods ∧
    method_is_resolve ("resolve_username") = true ∧
    method_is_resolve ("resolve_phone") = true ∧
    method_is_resolve ("GetResolvedPeer") = true := by
  refine ⟨?_, by decide, by decide, by decide, by decide, by decide, by decide,
    by decide, by decide, by decide⟩
  intro name
  exact charsContains_map_toLower name.data ("resolve").data

/-- Witness for C10: a name containing an upper-cased occurrence of the
needle is classified resolve-class via the characterization. -/
theorem c10_resolve_classification_witness :
    method_is_resolve ("my_Resolver") = true :=
  (c10_resolve_classification.1 ("my_Resolver")).mpr
    ⟨("my_").data, ("Resolve").data, ("r").data, by decide, by decide⟩
